import Mathlib

/-!
Verification of the Smart-Expense-Tracker (`app.py`, `database.py`):
a shallow embedding of the pay-cycle calculator, the three-tier
categorizer `smart_category` with its category cache, the expense store
operations, and the daily-budget projection, together with theorems
checking the specified properties against the embedded code.
-/

set_option autoImplicit false

namespace ExpenseTracker

/-- A calendar date, as Python's `datetime.date` triple. -/
structure Date where
  year : Nat
  month : Nat
  day : Nat
deriving Repr, DecidableEq

/-- Gregorian leap-year test. -/
def isLeap (y : Nat) : Bool :=
  (y % 4 == 0 && y % 100 != 0) || y % 400 == 0

/-- Number of days of month `m` of year `y` (months are 1-based). -/
def daysInMonth (y m : Nat) : Nat :=
  if m = 2 then (if isLeap y then 29 else 28)
  else if m = 4 ∨ m = 6 ∨ m = 9 ∨ m = 11 then 30
  else 31

/-- Days of year `y` that lie strictly before month `m` (for `1 ≤ m ≤ 13`). -/
def daysBeforeMonth (y : Nat) : Nat → Nat
  | 0 => 0
  | 1 => 0
  | (m + 2) => daysBeforeMonth y (m + 1) + daysInMonth y (m + 1)

/-- Total number of days of year `y`. -/
def daysInYear (y : Nat) : Nat := daysBeforeMonth y 13

/-- Days lying in years strictly before year `y`. -/
def daysBeforeYear : Nat → Nat
  | 0 => 0
  | (y + 1) => daysBeforeYear y + daysInYear y

/-- Day ordinal of a date: a strictly increasing encoding of valid dates. -/
def dateOrdinal (d : Date) : Nat :=
  daysBeforeYear d.year + daysBeforeMonth d.year d.month + d.day

/-- Difference in days between two dates, as Python's `(a - b).days`. -/
def dateDiff (a b : Date) : Int :=
  (dateOrdinal a : Int) - (dateOrdinal b : Int)

/-- The date is a real calendar day (year at least 1, month 1..12, day
within the month). -/
def validDate (d : Date) : Prop :=
  1 ≤ d.year ∧ 1 ≤ d.month ∧ d.month ≤ 12 ∧ 1 ≤ d.day ∧ d.day ≤ daysInMonth d.year d.month

instance (d : Date) : Decidable (validDate d) := by
  unfold validDate; infer_instance

/-- Embeds `today.replace(day=1) - timedelta(days=1)` from `get_cycle_dates`
(`app.py` line 56): the last day of the month before `today`'s month. -/
def lastDayOfPrevMonth (today : Date) : Date :=
  if today.month = 1 then ⟨today.year - 1, 12, 31⟩
  else ⟨today.year, today.month - 1, daysInMonth today.year (today.month - 1)⟩

/-- Embeds `get_cycle_dates` (`app.py` lines 50-63), with `today` passed
explicitly in place of `date.today()`. -/
def get_cycle_dates (today : Date) : Date × Date :=
  let start_date :=
    if today.day ≥ 25 then ⟨today.year, today.month, 25⟩
    else ⟨(lastDayOfPrevMonth today).year, (lastDayOfPrevMonth today).month, 25⟩
  let end_date :=
    if start_date.month = 12 then ⟨start_date.year + 1, 1, 24⟩
    else ⟨start_date.year, start_date.month + 1, 24⟩
  (start_date, end_date)

/-- The pay-cycle start as the specification words it: the 25th of the
current month when `today.day ≥ 25`, the 25th of the previous month
otherwise. -/
def cycleStartSpec (today : Date) : Date :=
  if today.day ≥ 25 then ⟨today.year, today.month, 25⟩
  else if today.month = 1 then ⟨today.year - 1, 12, 25⟩
  else ⟨today.year, today.month - 1, 25⟩

/-- The pay-cycle end as the specification words it: the 24th of the month
following `start`, a December start rolling over to January of the next
year. -/
def cycleEndSpec (start : Date) : Date :=
  if start.month = 12 then ⟨start.year + 1, 1, 24⟩
  else ⟨start.year, start.month + 1, 24⟩

/-- The `category_cache` table: rows `(description, category)` with
`description` as primary key. -/
abbrev Cache := List (String × String)

/-- Embeds `SELECT category FROM category_cache WHERE description=?`
followed by `cached[0][0]` (`app.py` lines 73-75): the category of the
first row whose description equals `k`, if any. -/
def cacheLookup (c : Cache) (k : String) : Option String :=
  (c.find? (fun p => p.1 == k)).map Prod.snd

/-- Embeds `INSERT OR REPLACE INTO category_cache` (`app.py` line 132):
any row with the same primary key is replaced. -/
def insertOrReplace (c : Cache) (k v : String) : Cache :=
  (k, v) :: c.filter (fun p => p.1 != k)

/-- Python's `str.strip()`: drop leading and trailing whitespace. -/
def pyStrip (s : String) : String :=
  String.mk (((s.toList.dropWhile Char.isWhitespace).reverse.dropWhile
    Char.isWhitespace).reverse)

/-- Python's `str.lower()` restricted to ASCII, as used on the trimmed
description (`app.py` line 78). -/
def lower (s : String) : String := String.mk (s.toList.map Char.toLower)

/-- `substrAux pat hay` holds when `pat` occurs contiguously in `hay`. -/
def substrAux (pat : List Char) : List Char → Bool
  | [] => pat.isEmpty
  | c :: t => pat.isPrefixOf (c :: t) || substrAux pat t

/-- Python's `keyword in text` substring test. -/
def strContains (text pat : String) : Bool :=
  substrAux pat.toList text.toList

/-- The keyword rule table of `smart_category` (`app.py` lines 79-96), in
the source's iteration order. -/
def mapping : List (String × List String) :=
  [("Transportation", ["uber", "taxi", "bolt", "lyft", "train", "bus", "metro", "subway", "gas", "fuel", "petrol", "parking", "bike", "scooter", "car", "transport", "ride", "trip"]),
   ("Food", ["pizza", "burger", "mcdonalds", "kfc", "dominos", "subway", "sushi", "thai", "chinese", "indian", "restaurant",
     "coffee", "starbucks", "cafe", "tea", "drink", "beverage", "juice", "soda", "coke", "pepsi", "sprite", "fanta", "red bull", "redbull", "energy drink", "water", "milk",
     "lunch", "dinner", "breakfast", "brunch", "food", "meal", "eat", "snack",
     "grocery", "supermarket", "bakery", "deli", "market", "produce", "bread", "cheese", "meat", "vegetable", "fruit"]),
   ("Entertainment", ["netflix", "spotify", "cinema", "movie", "game", "pub", "bar", "club", "concert", "theater", "theatre", "youtube", "twitch", "steam", "playstation", "xbox", "nintendo", "party", "event", "ticket", "show"]),
   ("Utilities", ["electricity", "water", "gas bill", "internet", "wifi", "phone bill", "mobile", "rent", "heating", "utility", "bill"]),
   ("Shopping", ["amazon", "ebay", "clothes", "clothing", "shoes", "shirt", "pants", "dress", "mall", "store", "shop", "zara", "h&m", "nike", "adidas", "online", "purchase"]),
   ("Education", ["book", "textbook", "course", "tuition", "school", "university", "college", "stationery", "notebook", "pen", "pencil", "study", "library", "class", "lecture"]),
   ("Health", ["pharmacy", "medicine", "doctor", "hospital", "clinic", "gym", "fitness", "health", "medical", "prescription", "dentist", "vitamin", "supplement"])]

/-- One rule-table entry fires on `text` when any of its keywords occurs in
`text` (`app.py` line 101). -/
def matchesCat (text : String) (entry : String × List String) : Bool :=
  entry.2.any (fun kw => strContains text kw)

/-- Embeds the `for cat, keywords in mapping.items(): ... break` loop
(`app.py` lines 98-103): the first category whose keyword list hits. -/
def ruleMatch (rules : List (String × List String)) (text : String) : Option String :=
  (rules.find? (matchesCat text)).map Prod.fst

/-- Embeds `response...content.strip().replace(".", "")` (`app.py`
line 127): trim the classifier's reply, then delete every period. -/
def processAI (r : String) : String :=
  String.mk ((pyStrip r).toList.filter (fun ch => ch ≠ '.'))

/-- Result of one `smart_category` call: the returned label, the
`category_cache` state after the call, and whether the remote classifier
was invoked. -/
structure SCResult where
  category : String
  cache : Cache
  aiCalled : Bool
deriving Repr, DecidableEq

/-- Embeds `smart_category` (`app.py` lines 66-133). `cache` is the
`category_cache` state, `rules` the keyword table (the source always
passes `mapping`), and `ai` the outcome of the single remote-classifier
call: `some r` when it returns content `r`, `none` when it raises. -/
def smart_category (cache : Cache) (rules : List (String × List String))
    (ai : Option String) (description : String) : SCResult :=
  let desc_clean := pyStrip description
  if desc_clean = "" then ⟨"Other", cache, false⟩
  else
    match cacheLookup cache desc_clean with
    | some c => ⟨c, cache, false⟩
    | none =>
      match ruleMatch rules (lower desc_clean) with
      | some cat => ⟨cat, insertOrReplace cache desc_clean cat, false⟩
      | none =>
        let cat := match ai with
          | some r => processAI r
          | none => "Other"
        ⟨cat, insertOrReplace cache desc_clean cat, true⟩

/-- Reachable `category_cache` states never hold an empty description key:
the only write site (`app.py` line 132) is guarded by the emptiness check
on line 69. -/
def cacheKeysNonempty (c : Cache) : Prop :=
  ∀ p ∈ c, p.1 ≠ ""

instance (c : Cache) : Decidable (cacheKeysNonempty c) := by
  unfold cacheKeysNonempty; infer_instance

/-- The `description TEXT PRIMARY KEY` invariant: at most one row per
distinct description string. -/
def cacheKeysNodup (c : Cache) : Prop :=
  (c.map Prod.fst).Nodup

instance (c : Cache) : Decidable (cacheKeysNodup c) := by
  unfold cacheKeysNodup; infer_instance

/-- A row of the `expenses` table. Monetary amounts are modelled as exact
rationals; the code applies no arithmetic to an amount between the form
and the INSERT, so the embedding records exactly the value handed to the
store. -/
structure Expense where
  id : Nat
  date : String
  description : String
  amount : ℚ
  category : String
deriving Repr, DecidableEq

/-- The persisted state: the `expenses` table (rows in insertion order,
ids assigned by AUTOINCREMENT), the next id, the `category_cache` table,
and whether the CREATE TABLE statements have run. -/
structure Store where
  tablesReady : Bool
  expenses : List Expense
  nextId : Nat
  cache : Cache
deriving Repr, DecidableEq

/-- Embeds `init_db` (`app.py` lines 44-47, `database.py` lines 6-20):
`CREATE TABLE IF NOT EXISTS` for both tables, which brings the schema up
but touches no existing row. -/
def init_db (s : Store) : Store :=
  { s with tablesReady := true }

/-- Embeds `add_expense` (`database.py` lines 22-30) and the add-form
INSERT (`app.py` lines 197-198): the amount is inserted exactly as
received. -/
def add_expense (s : Store) (date description : String) (amount : ℚ)
    (category : String) : Store :=
  { s with
    expenses := s.expenses ++ [⟨s.nextId, date, description, amount, category⟩],
    nextId := s.nextId + 1 }

/-- Embeds `get_expenses` (`database.py` lines 32-38):
`SELECT * FROM expenses ORDER BY id DESC`, newest row first. -/
def get_expenses (s : Store) : List Expense :=
  s.expenses.reverse

/-- Embeds the Clear Cache button handler (`app.py` lines 152-155):
`DELETE FROM category_cache` and nothing else. -/
def clear_cache (s : Store) : Store :=
  { s with cache := [] }

/-- The normalization the specification prescribes for legacy dates:
truncation to the first 10 characters. -/
def truncated10 (s : String) : String := s.take 10

/-- Embeds `days_left = (end_cycle - date.today()).days + 1`
(`app.py` line 381). -/
def days_left (end_cycle today : Date) : Int :=
  dateDiff end_cycle today + 1

/-- Embeds `daily = remaining_balance / max(days_left, 1)`
(`app.py` line 382). -/
def daily_budget (remaining_balance : ℚ) (dl : Int) : ℚ :=
  remaining_balance / ((max dl 1 : Int) : ℚ)

/-- Embeds the displayed figure `max(0, daily)` (`app.py` line 383). -/
def displayed_budget (remaining_balance : ℚ) (dl : Int) : ℚ :=
  max 0 (daily_budget remaining_balance dl)

/-- An empty store after schema creation. -/
def emptyStore : Store := ⟨true, [], 1, []⟩

/-- A pre-startup store holding one legacy row whose date carries a
trailing time component. -/
def legacyStore : Store :=
  ⟨false, [⟨1, "2024-03-10 12:00:00", "coffee", 3, "Food"⟩], 2, []⟩

end ExpenseTracker

namespace ExpenseTracker

theorem daysBeforeMonth_succ (y m : Nat) (hm : 1 ≤ m) :
    daysBeforeMonth y (m + 1) = daysBeforeMonth y m + daysInMonth y m := by
  match m, hm with
  | (k + 1), _ => rfl

/-- C1: For every date `today`, the pay-cycle calculator returns an interval
whose start is the 25th of the current month when today's day-of-month is at
least 25 and the 25th of the previous month otherwise, and whose end is the
24th of the month following the start, with a December start rolling over to
January of the next year; for today = 2024-03-10 it returns start 2024-02-25
and end 2024-03-24, and for today = 2024-12-30 it returns start 2024-12-25
and end 2025-01-24. -/
theorem C1_pay_cycle (today : Date) (hv : validDate today) :
    (get_cycle_dates today).1 = cycleStartSpec today ∧
    (get_cycle_dates today).2 = cycleEndSpec (get_cycle_dates today).1 ∧
    get_cycle_dates ⟨2024, 3, 10⟩ = (⟨2024, 2, 25⟩, ⟨2024, 3, 24⟩) ∧
    get_cycle_dates ⟨2024, 12, 30⟩ = (⟨2024, 12, 25⟩, ⟨2025, 1, 24⟩) := by
  obtain ⟨hy, hm1, hm12, hd1, hd2⟩ := hv
  refine ⟨?_, ?_, by decide, by decide⟩
  · simp only [get_cycle_dates, cycleStartSpec, lastDayOfPrevMonth]
    by_cases h25 : today.day ≥ 25 <;> simp [h25]
    by_cases hjan : today.month = 1 <;> simp [hjan]
  · simp only [get_cycle_dates, cycleEndSpec]

/-- Witness for C1 at the concrete date 2024-03-10. -/
theorem C1_pay_cycle_witness :
    validDate ⟨2024, 3, 10⟩ ∧
    (get_cycle_dates ⟨2024, 3, 10⟩).1 = cycleStartSpec ⟨2024, 3, 10⟩ :=
  ⟨by decide, (C1_pay_cycle ⟨2024, 3, 10⟩ (by decide)).1⟩

end ExpenseTracker

namespace ExpenseTracker

theorem find?_first {α : Type} (p : α → Bool) (l : List α) (a : α)
    (h : l.find? p = some a) :
    p a = true ∧ ∃ pre post, l = pre ++ a :: post ∧ ∀ x ∈ pre, p x = false := by
  induction l with
  | nil => simp at h
  | cons b t ih =>
    by_cases hb : p b = true
    · rw [List.find?_cons_of_pos _ hb] at h
      cases h
      exact ⟨hb, [], t, rfl, by simp⟩
    · rw [List.find?_cons_of_neg _ hb] at h
      obtain ⟨hpa, pre, post, hl, hpre⟩ := ih h
      refine ⟨hpa, b :: pre, post, by rw [hl]; rfl, ?_⟩
      intro x hx
      rcases List.mem_cons.mp hx with rfl | hx
      · exact Bool.eq_false_iff.mpr hb
      · exact hpre x hx

theorem cacheLookup_some_key_mem (c : Cache) (k v : String)
    (h : cacheLookup c k = some v) : ∃ p ∈ c, p.1 = k ∧ p.2 = v := by
  unfold cacheLookup at h
  obtain ⟨p, hp, hv⟩ := Option.map_eq_some'.mp h
  exact ⟨p, List.mem_of_find?_eq_some hp,
    by simpa using List.find?_some hp, hv⟩

theorem cacheLookup_insertOrReplace_self (c : Cache) (k v : String) :
    cacheLookup (insertOrReplace c k v) k = some v := by
  unfold cacheLookup insertOrReplace
  rw [List.find?_cons_of_pos _ (by simp)]
  rfl

theorem insertOrReplace_keysNonempty (c : Cache) (k v : String) (hk : k ≠ "")
    (h : cacheKeysNonempty c) : cacheKeysNonempty (insertOrReplace c k v) := by
  intro p hp
  rcases List.mem_cons.mp hp with rfl | hp
  · exact hk
  · exact h p (List.mem_of_mem_filter hp)

theorem insertOrReplace_keysNodup (c : Cache) (k v : String)
    (h : cacheKeysNodup c) : cacheKeysNodup (insertOrReplace c k v) := by
  unfold cacheKeysNodup at h ⊢
  unfold insertOrReplace
  simp only [List.map_cons, List.nodup_cons]
  constructor
  · intro hmem
    obtain ⟨p, hp, hpk⟩ := List.mem_map.mp hmem
    have hf := List.of_mem_filter hp
    rw [hpk] at hf
    simp at hf
  · exact List.Nodup.sublist (List.Sublist.map _ (List.filter_sublist c)) h

/-- The cache after a `smart_category` call is either the old cache or the
old cache with one row upserted at the nonempty trimmed description. -/
theorem smart_category_cache_shape (cache : Cache)
    (rules : List (String × List String)) (ai : Option String) (desc : String) :
    (smart_category cache rules ai desc).cache = cache ∨
    (pyStrip desc ≠ "" ∧ ∃ x, (smart_category cache rules ai desc).cache
        = insertOrReplace cache (pyStrip desc) x) := by
  unfold smart_category
  by_cases h0 : pyStrip desc = ""
  · left; simp [h0]
  · simp only [h0, if_false]
    cases hc : cacheLookup cache (pyStrip desc) with
    | some c => simp [hc]
    | none =>
      cases hr : ruleMatch rules (lower (pyStrip desc)) with
      | some cat =>
        right
        exact ⟨h0, cat, by simp [hc, hr]⟩
      | none =>
        right
        cases ai with
        | some r => exact ⟨h0, processAI r, by simp [hc, hr]⟩
        | none => exact ⟨h0, "Other", by simp [hc, hr]⟩

theorem smart_category_keysNonempty (cache : Cache)
    (rules : List (String × List String)) (ai : Option String) (desc : String)
    (h : cacheKeysNonempty cache) :
    cacheKeysNonempty (smart_category cache rules ai desc).cache := by
  rcases smart_category_cache_shape cache rules ai desc with heq | ⟨h0, x, heq⟩
  · rw [heq]; exact h
  · rw [heq]; exact insertOrReplace_keysNonempty _ _ _ h0 h

/-- C2: for every description whose trimmed form is already cached with
category C, `smart_category` returns C with the cache unchanged and the
classifier not invoked, for every rule table and every classifier
behavior (so neither tier below the cache is consulted). -/
theorem C2_cache_short_circuit (cache : Cache) (desc C : String)
    (hwf : cacheKeysNonempty cache)
    (hc : cacheLookup cache (pyStrip desc) = some C)
    (rules : List (String × List String)) (ai : Option String) :
    smart_category cache rules ai desc = ⟨C, cache, false⟩ := by
  have hne : pyStrip desc ≠ "" := by
    intro h0
    obtain ⟨p, hp, hk, _⟩ := cacheLookup_some_key_mem _ _ _ hc
    exact hwf p hp (by rw [hk, h0])
  unfold smart_category
  simp [hne, hc]

/-- Witness for C2: a cached description is returned from the cache. -/
theorem C2_cache_short_circuit_witness :
    smart_category [("coffee", "Food")] mapping none " coffee "
      = ⟨"Food", [("coffee", "Food")], false⟩ :=
  C2_cache_short_circuit [("coffee", "Food")] " coffee " "Food"
    (by decide) (by decide) mapping none

/-- Every keyword of the rule table is a nonempty string. -/
theorem mapping_keywords_nonempty : ∀ e ∈ mapping, ∀ k ∈ e.2, k ≠ "" := by
  decide

/-- C3: for every non-cached description whose lowercased trimmed form
contains a configured keyword, `smart_category` does not invoke the
classifier, and the returned category is the first entry of the rule
table (in its fixed order) one of whose keywords occurs in the text. -/
theorem C3_keyword_first_category (cache : Cache) (desc : String)
    (ai : Option String) (cat kw : String) (kws : List String)
    (hnc : cacheLookup cache (pyStrip desc) = none)
    (hmem : (cat, kws) ∈ mapping) (hkw : kw ∈ kws)
    (hhit : strContains (lower (pyStrip desc)) kw = true) :
    (smart_category cache mapping ai desc).aiCalled = false ∧
    ∃ kws2 pre post,
      mapping = pre ++ ((smart_category cache mapping ai desc).category, kws2) :: post ∧
      matchesCat (lower (pyStrip desc))
        ((smart_category cache mapping ai desc).category, kws2) = true ∧
      ∀ e ∈ pre, matchesCat (lower (pyStrip desc)) e = false := by
  have hkwne : kw ≠ "" := mapping_keywords_nonempty _ hmem _ hkw
  have hne : pyStrip desc ≠ "" := by
    intro h0
    rw [h0] at hhit
    have hlow : lower "" = "" := rfl
    rw [hlow] at hhit
    have : kw.toList.isEmpty = true := hhit
    have hnil : kw.toList = [] := by simpa [List.isEmpty_iff] using this
    apply hkwne
    cases kw with
    | mk l =>
      cases hnil
      rfl
  have hme : matchesCat (lower (pyStrip desc)) (cat, kws) = true := by
    unfold matchesCat
    exact List.any_eq_true.mpr ⟨kw, hkw, hhit⟩
  cases hf : List.find? (matchesCat (lower (pyStrip desc))) mapping with
  | none =>
    exact absurd hme (by simpa using List.find?_eq_none.mp hf _ hmem)
  | some e =>
    obtain ⟨hpe, pre, post, hdecomp, hpre⟩ := find?_first _ _ _ hf
    have hres : smart_category cache mapping ai desc
        = ⟨e.1, insertOrReplace cache (pyStrip desc) e.1, false⟩ := by
      unfold smart_category ruleMatch
      simp [hne, hnc, hf]
    rw [hres]
    exact ⟨rfl, e.2, pre, post, by simpa using hdecomp, by simpa using hpe, hpre⟩

/-- Witness for C3: " Uber ride " resolves to Transportation by keyword
with no classifier call. -/
theorem C3_keyword_first_category_witness :
    (smart_category [] mapping none " Uber ride ").aiCalled = false ∧
    ∃ kws2 pre post,
      mapping = pre ++ ((smart_category [] mapping none " Uber ride ").category, kws2) :: post ∧
      matchesCat (lower (pyStrip " Uber ride "))
        ((smart_category [] mapping none " Uber ride ").category, kws2) = true ∧
      ∀ e ∈ pre, matchesCat (lower (pyStrip " Uber ride ")) e = false :=
  C3_keyword_first_category [] " Uber ride " none "Transportation" "uber"
    ["uber", "taxi", "bolt", "lyft", "train", "bus", "metro", "subway", "gas", "fuel", "petrol", "parking", "bike", "scooter", "car", "transport", "ride", "trip"]
    (by decide) (by decide) (by decide) (by decide)

/-- C4: for a nonempty, non-cached description matching no keyword rule,
a failing classifier call yields the label Other, and Other is written
into the cache keyed by the trimmed description before returning. -/
theorem C4_classifier_failure (cache : Cache) (desc : String)
    (hne : pyStrip desc ≠ "")
    (hnc : cacheLookup cache (pyStrip desc) = none)
    (hnorule : ∀ e ∈ mapping, matchesCat (lower (pyStrip desc)) e = false) :
    smart_category cache mapping none desc
      = ⟨"Other", insertOrReplace cache (pyStrip desc) "Other", true⟩ ∧
    cacheLookup (smart_category cache mapping none desc).cache (pyStrip desc)
      = some "Other" := by
  have hrm : ruleMatch mapping (lower (pyStrip desc)) = none := by
    unfold ruleMatch
    rw [List.find?_eq_none.mpr (fun x hx => by simp [hnorule x hx])]
    rfl
  have h1 : smart_category cache mapping none desc
      = ⟨"Other", insertOrReplace cache (pyStrip desc) "Other", true⟩ := by
    unfold smart_category
    simp [hne, hnc, hrm]
  refine ⟨h1, ?_⟩
  rw [h1]
  exact cacheLookup_insertOrReplace_self _ _ _

/-- Witness for C4 at the unmatched description "zzz". -/
theorem C4_classifier_failure_witness :
    smart_category [] mapping none "zzz"
      = ⟨"Other", insertOrReplace [] (pyStrip "zzz") "Other", true⟩ ∧
    cacheLookup (smart_category [] mapping none "zzz").cache (pyStrip "zzz")
      = some "Other" :=
  C4_classifier_failure [] "zzz" (by decide) (by decide) (by decide)

/-- C5: an empty or whitespace-only description yields Other with the
cache untouched and the classifier not invoked. -/
theorem C5_empty_description (cache : Cache)
    (rules : List (String × List String)) (ai : Option String) (desc : String)
    (h : pyStrip desc = "") :
    smart_category cache rules ai desc = ⟨"Other", cache, false⟩ := by
  unfold smart_category
  simp [h]

/-- Witness for C5 at a whitespace-only description. -/
theorem C5_empty_description_witness :
    smart_category [] mapping none "   " = ⟨"Other", [], false⟩ :=
  C5_empty_description [] mapping none "   " (by decide)

/-- C8: resolving any description preserves the primary-key invariant of
`category_cache`: at most one row per distinct description string. -/
theorem C8_cache_key_unique (cache : Cache)
    (rules : List (String × List String)) (ai : Option String) (desc : String)
    (h : cacheKeysNodup cache) :
    cacheKeysNodup (smart_category cache rules ai desc).cache := by
  rcases smart_category_cache_shape cache rules ai desc with heq | ⟨_, x, heq⟩
  · rw [heq]; exact h
  · rw [heq]; exact insertOrReplace_keysNodup _ _ _ h

/-- Witness for C8: resolving on a two-row cache keeps the keys distinct. -/
theorem C8_cache_key_unique_witness :
    cacheKeysNodup (smart_category [("coffee", "Food"), ("uber", "Transportation")]
      mapping none "zzz").cache :=
  C8_cache_key_unique [("coffee", "Food"), ("uber", "Transportation")]
    mapping none "zzz" (by decide)

end ExpenseTracker

namespace ExpenseTracker

/-- C6 counterexample: the code applies no rounding to an amount; the
expense created with amount 12.345 is retrieved with the unrounded
amount 12.345, which is neither 12.34 nor 12.35. -/
theorem C6_counterexample :
    (get_expenses (add_expense emptyStore "2024-03-10" "snack" (12345 / 1000)
        "Food")).map Expense.amount = [12345 / 1000] ∧
    (12345 / 1000 : ℚ) ≠ 1234 / 100 ∧ (12345 / 1000 : ℚ) ≠ 1235 / 100 := by
  refine ⟨rfl, by norm_num, by norm_num⟩

/-- C6 amended: the persisted and retrieved amount is the input exactly as
received, with no rounding applied anywhere between form and store. -/
theorem C6_amount_stored_verbatim (s : Store) (date descr : String)
    (amount : ℚ) (category : String) :
    (get_expenses (add_expense s date descr amount category)).map Expense.amount
      = amount :: (get_expenses s).map Expense.amount := by
  simp [get_expenses, add_expense]

/-- C9 counterexample: startup initialization leaves a legacy row's date
with its trailing time component; it is not truncated to 10 characters. -/
theorem C9_counterexample :
    (init_db legacyStore).expenses.map Expense.date = ["2024-03-10 12:00:00"] ∧
    truncated10 "2024-03-10 12:00:00" = "2024-03-10" ∧
    "2024-03-10 12:00:00" ≠ "2024-03-10" := by
  refine ⟨rfl, by decide, by decide⟩

/-- C9 amended: `init_db` only issues CREATE TABLE IF NOT EXISTS; it
performs no migration, so every stored row (dates included) is unchanged
at startup. -/
theorem C9_no_date_migration (s : Store) :
    (init_db s).expenses = s.expenses ∧ (init_db s).cache = s.cache ∧
    (init_db s).tablesReady = true :=
  ⟨rfl, rfl, rfl⟩

/-- C10: the Clear Cache handler empties `category_cache` and leaves every
row of `expenses` unchanged. -/
theorem C10_clear_cache_frame (s : Store) :
    (clear_cache s).cache = [] ∧ (clear_cache s).expenses = s.expenses :=
  ⟨rfl, rfl⟩

end ExpenseTracker

namespace ExpenseTracker

/-- Within the program, the cycle end computed from `today` never precedes
`today`: the day ordinal of the cycle end is at least that of `today`. -/
theorem cycle_end_ordinal_ge (today : Date) (hv : validDate today) :
    dateOrdinal today ≤ dateOrdinal (get_cycle_dates today).2 := by
  obtain ⟨y, m, d⟩ := today
  obtain ⟨hy, hm1, hm12, hd1, hd2⟩ := hv
  simp only at hy hm1 hm12 hd1 hd2
  by_cases h25 : d ≥ 25
  · by_cases h12 : m = 12
    · subst h12
      have hEnd : (get_cycle_dates ⟨y, 12, d⟩).2 = ⟨y + 1, 1, 24⟩ := by
        simp [get_cycle_dates, h25]
      rw [hEnd]
      unfold dateOrdinal
      simp only
      have h1 : daysBeforeYear (y + 1) = daysBeforeYear y + daysInYear y := rfl
      have h2 : daysInYear y = daysBeforeMonth y 12 + daysInMonth y 12 := rfl
      have h3 : daysInMonth y 12 = 31 := by norm_num [daysInMonth]
      have h4 : daysBeforeMonth (y + 1) 1 = 0 := rfl
      rw [h3] at hd2
      omega
    · have hEnd : (get_cycle_dates ⟨y, m, d⟩).2 = ⟨y, m + 1, 24⟩ := by
        simp [get_cycle_dates, h25, h12]
      rw [hEnd]
      unfold dateOrdinal
      simp only
      have h5 : daysBeforeMonth y (m + 1) = daysBeforeMonth y m + daysInMonth y m :=
        daysBeforeMonth_succ y m hm1
      omega
  · by_cases hjan : m = 1
    · subst hjan
      have h6 : y - 1 + 1 = y := by omega
      have hEnd : (get_cycle_dates ⟨y, 1, d⟩).2 = ⟨y - 1 + 1, 1, 24⟩ := by
        simp [get_cycle_dates, lastDayOfPrevMonth, h25]
      rw [h6] at hEnd
      rw [hEnd]
      unfold dateOrdinal
      simp only
      omega
    · have hne12 : ¬(m - 1 = 12) := by omega
      have h8 : m - 1 + 1 = m := by omega
      have hEnd : (get_cycle_dates ⟨y, m, d⟩).2 = ⟨y, m - 1 + 1, 24⟩ := by
        simp [get_cycle_dates, lastDayOfPrevMonth, h25, hjan, hne12]
      rw [h8] at hEnd
      rw [hEnd]
      unfold dateOrdinal
      simp only
      omega

/-- C7: for every valid `today` and balance, with the cycle end from
`get_cycle_dates`: the days remaining are `(end - today) + 1` and are at
least 1 (so the floor at 1 in the divisor is inactive), the daily
allowance is the balance divided by the days remaining, and the displayed
figure floors the allowance at 0; numerically, balance 150 over 5 days
gives 30 and balance -20 displays as 0. -/
theorem C7_daily_projection (today : Date) (balance : ℚ) (hv : validDate today) :
    1 ≤ days_left (get_cycle_dates today).2 today ∧
    days_left (get_cycle_dates today).2 today
      = max (dateDiff (get_cycle_dates today).2 today + 1) 1 ∧
    daily_budget balance (days_left (get_cycle_dates today).2 today)
      = balance / ((days_left (get_cycle_dates today).2 today : Int) : ℚ) ∧
    displayed_budget balance (days_left (get_cycle_dates today).2 today)
      = max 0 (daily_budget balance (days_left (get_cycle_dates today).2 today)) ∧
    daily_budget 150 5 = 30 ∧
    displayed_budget (-20) 5 = 0 := by
  have hge := cycle_end_ordinal_ge today hv
  have h1 : 1 ≤ days_left (get_cycle_dates today).2 today := by
    unfold days_left dateDiff
    omega
  have hmax : max (days_left (get_cycle_dates today).2 today) 1
      = days_left (get_cycle_dates today).2 today := max_eq_left h1
  refine ⟨h1, ?_, ?_, rfl, by norm_num [daily_budget],
    by norm_num [displayed_budget, daily_budget]⟩
  · unfold days_left dateDiff
    omega
  · unfold daily_budget
    rw [hmax]

/-- Witness for C7 at today = 2024-03-10 with balance 150. -/
theorem C7_daily_projection_witness :
    validDate ⟨2024, 3, 10⟩ ∧
    (1 ≤ days_left (get_cycle_dates ⟨2024, 3, 10⟩).2 ⟨2024, 3, 10⟩ ∧
    days_left (get_cycle_dates ⟨2024, 3, 10⟩).2 ⟨2024, 3, 10⟩
      = max (dateDiff (get_cycle_dates ⟨2024, 3, 10⟩).2 ⟨2024, 3, 10⟩ + 1) 1 ∧
    daily_budget 150 (days_left (get_cycle_dates ⟨2024, 3, 10⟩).2 ⟨2024, 3, 10⟩)
      = 150 / ((days_left (get_cycle_dates ⟨2024, 3, 10⟩).2 ⟨2024, 3, 10⟩ : Int) : ℚ) ∧
    displayed_budget 150 (days_left (get_cycle_dates ⟨2024, 3, 10⟩).2 ⟨2024, 3, 10⟩)
      = max 0 (daily_budget 150 (days_left (get_cycle_dates ⟨2024, 3, 10⟩).2 ⟨2024, 3, 10⟩)) ∧
    daily_budget 150 5 = 30 ∧
    displayed_budget (-20) 5 = 0) :=
  ⟨by decide, C7_daily_projection ⟨2024, 3, 10⟩ 150 (by decide)⟩

end ExpenseTracker
